import Mathlib

/-!
Shallow embedding of the concurrent asset-extraction and capture-bundle
pipeline of the webpage-scraper repository (src/images.rs and
src/webpage.rs), together with proofs settling the frozen claims about
its specification.

Modelling conventions:
* byte buffers are `List Nat`;
* Rust `&str` operations are embedded as executable functions on
  `List Char` (Rust iterates over chars for the operations used here);
  the ASCII whitespace subset of `Char.isWhitespace` agrees with Rust
  on every input the claims mention;
* fallible operations return `Except`/`Option`;
* the external collaborators (URL parsing/joining from the url crate,
  the HTTP client, the HTML scanner from the scraper crate, and pandoc)
  are injected capabilities, mirroring the crate boundaries of the
  source;
* the filesystem is an explicit association-list state threaded through
  the write operations; concurrently joined writes are embedded as a
  sequence in issue order (they target distinct paths, and the source
  joins all of them before inspecting any result).
-/

namespace Scraper

/-- Embedding of Rust `str::split(c)`: splits at every occurrence of `c`,
keeping empty segments (`""` yields `[[]]`). Accumulator variant. -/
def splitOnCharAux (c : Char) : List Char → List Char → List (List Char)
  | [], acc => [acc.reverse]
  | x :: xs, acc =>
    if x = c then acc.reverse :: splitOnCharAux c xs []
    else splitOnCharAux c xs (x :: acc)

/-- Embedding of Rust `str::split(c)`. -/
def splitOnChar (c : Char) (l : List Char) : List (List Char) :=
  splitOnCharAux c l []

/-- Embedding of Rust `str::split_once(c)`: splits at the first
occurrence of `c`, `none` when `c` does not occur. -/
def splitOnceChar (c : Char) : List Char → Option (List Char × List Char)
  | [] => none
  | x :: xs =>
    if x = c then some ([], xs)
    else (splitOnceChar c xs).map (fun p => (x :: p.1, p.2))

/-- Embedding of Rust `str::trim` (whitespace stripped from both ends). -/
def trimChars (l : List Char) : List Char :=
  ((l.dropWhile Char.isWhitespace).reverse.dropWhile Char.isWhitespace).reverse

/-- Embedding of Rust `str::split_whitespace`: the maximal runs of
non-whitespace characters, in order. The accumulator holds the current
run, reversed. -/
def wordsAux : List Char → List Char → List (List Char)
  | [], acc => if acc = [] then [] else [acc.reverse]
  | c :: cs, acc =>
    if c.isWhitespace then
      if acc = [] then wordsAux cs [] else acc.reverse :: wordsAux cs []
    else wordsAux cs (c :: acc)

/-- The whitespace-delimited tokens of a string
(Rust `s.split_whitespace().collect()`). -/
def wordsOf (s : String) : List (List Char) :=
  wordsAux s.data []

/-- Embedding of Rust `s.split_whitespace().count()`. -/
def countWords (s : String) : Nat :=
  (wordsOf s).length

/-- Boolean list-prefix test (embedding of Rust `str::starts_with`). -/
def listStartsWith : List Char → List Char → Bool
  | _, [] => true
  | [], _ :: _ => false
  | x :: xs, y :: ys => x = y && listStartsWith xs ys

/-- Embedding of Rust `str::starts_with` on strings. -/
def strStartsWith (s pre : String) : Bool :=
  listStartsWith s.data pre.data

/-- Embedding of Rust `str::ends_with` on strings. -/
def strEndsWith (s suf : String) : Bool :=
  listStartsWith s.data.reverse suf.data.reverse

/-- Value of one character of the standard Base64 alphabet. -/
def b64Val (c : Char) : Option Nat :=
  if 'A' ≤ c ∧ c ≤ 'Z' then some (c.toNat - 65)
  else if 'a' ≤ c ∧ c ≤ 'z' then some (c.toNat - 97 + 26)
  else if '0' ≤ c ∧ c ≤ '9' then some (c.toNat - 48 + 52)
  else if c = '+' then some 62
  else if c = '/' then some 63
  else none

/-- Embedding of `base64::engine::general_purpose::STANDARD.decode`:
canonical padding required (length a multiple of four, `=` only at the
end), non-zero trailing bits rejected. Processes one quartet at a time. -/
def b64DecodeAux : List Char → Option (List Nat)
  | [] => some []
  | c1 :: c2 :: c3 :: c4 :: rest =>
    match b64Val c1, b64Val c2 with
    | some v1, some v2 =>
      if rest = [] ∧ c3 = '=' ∧ c4 = '=' then
        if v2 % 16 = 0 then some [v1 * 4 + v2 / 16] else none
      else
        match b64Val c3 with
        | some v3 =>
          if rest = [] ∧ c4 = '=' then
            if v3 % 4 = 0 then some [v1 * 4 + v2 / 16, v2 % 16 * 16 + v3 / 4]
            else none
          else
            match b64Val c4 with
            | some v4 =>
              (b64DecodeAux rest).map
                (fun bs => (v1 * 4 + v2 / 16) :: (v2 % 16 * 16 + v3 / 4) ::
                  (v3 % 4 * 64 + v4) :: bs)
            | none => none
        | none => none
    | _, _ => none
  | _ => none

/-- Base64 decoding of a string body (standard engine). -/
def base64Decode (s : String) : Option (List Nat) :=
  b64DecodeAux s.data

/-- Opaque model of `url::Url`: the textual form plus the
`path_segments()` view the source reads for filenames. -/
structure Url where
  raw : String
  pathSegs : Option (List String)
deriving DecidableEq, Repr

/-- One scanned `img` element: its optional `src` attribute and its
optional `data-srcset` attribute (the two attributes the scan loop of
`Images::from` reads). -/
structure ImgElement where
  src : Option String
  srcset : Option String
deriving DecidableEq, Repr

/-- Injected external collaborators: `Url::parse`, `Url::join` (the url
crate), the HTTP client (`reqwest` GET returning the body bytes, `none`
for any transport or non-2xx status failure), and the HTML scanner
(scraper crate: parse the document and select the `img` elements). -/
structure Env where
  parse : String → Option Url
  join : Url → String → Option Url
  net : Url → Option (List Nat)
  scan : String → List ImgElement

/-- Embedding of `Image` from src/images.rs. -/
structure Image where
  image_bytes : List Nat
  filename : String
deriving DecidableEq, Repr

/-- Embedding of `ImagesError` from src/images.rs (payloads dropped).
`Base24CommaError` is the variant the spec calls Base64FormatError;
`Base64Error` is the spec's Base64DecodeError. -/
inductive ImagesError
  | UrlError
  | ReqwestError
  | Base64Error
  | Base24CommaError
  | IOError
  | SrcsetError
deriving DecidableEq, Repr

/-- Rust `Result::ok`: forget the error, keep the success. -/
def resOk {ε α : Type} : Except ε α → Option α
  | .ok a => some a
  | .error _ => none

/-- Whether an `Except` is an error. -/
def isErr {ε α : Type} : Except ε α → Bool
  | .ok _ => false
  | .error _ => true

namespace Image

/-- Embedding of `Image::extract_last_image_url`: split the candidate
list on commas, trim, take the first whitespace token of each entry,
keep the candidates ending in an image extension, return the last. -/
def extract_last_image_url (srcset : String) : Option String :=
  ((((splitOnChar ',' srcset.data).map trimChars).filterMap
      (fun entry => (wordsAux entry []).head?)).filter
    (fun url =>
      listStartsWith url.reverse ".jpg".data.reverse ||
      listStartsWith url.reverse ".jpeg".data.reverse ||
      listStartsWith url.reverse ".png".data.reverse ||
      listStartsWith url.reverse ".webp".data.reverse)).getLast?.map
    String.mk

/-- Embedding of `Image::parse_data_url`: split the payload at the first
comma into metadata and body, read the MIME subtype from the metadata
(first `;`-segment, second `/`-segment, default `"img"`), Base64-decode
the body, name the result `inline.<subtype>`. -/
def parse_data_url (src : String) : Except ImagesError Image :=
  match splitOnceChar ',' src.data with
  | none => .error .Base24CommaError
  | some (meta, data) =>
    let extension :=
      (((splitOnChar '/' ((splitOnChar ';' meta).headD [])).get? 1).getD
        "img".data)
    match b64DecodeAux data with
    | none => .error .Base64Error
    | some bytes => .ok ⟨bytes, String.mk ("inline.".data ++ extension)⟩

/-- Embedding of `Image::fetch_image`: GET the URL, buffer the body, name
the asset after the last non-empty path segment, default `"image"`. -/
def fetch_image (net : Url → Option (List Nat)) (img_url : Url) :
    Except ImagesError Image :=
  match net img_url with
  | none => .error .ReqwestError
  | some bytes =>
    let filename :=
      (Option.filter (fun s => !s.isEmpty)
        (img_url.pathSegs.bind List.getLast?)).getD "image"
    .ok ⟨bytes, filename⟩

/-- Embedding of `Image::handle_image_src`: inline data-URL payloads are
decoded in place, anything else is joined against the base URL and
fetched. -/
def handle_image_src (env : Env) (base : Url) (src : String) :
    Except ImagesError Image :=
  if strStartsWith src "data:image" then parse_data_url src
  else
    match env.join base src with
    | none => .error .UrlError
    | some u => fetch_image env.net u

/-- Embedding of `Image::handle_image_srcset`: pick the last
image-extension candidate, parse it as an absolute URL, fetch it. -/
def handle_image_srcset (env : Env) (srcset : String) :
    Except ImagesError Image :=
  match extract_last_image_url srcset with
  | none => .error .SrcsetError
  | some u =>
    match env.parse u with
    | none => .error .UrlError
    | some url => fetch_image env.net url

end Image

namespace Images

/-- The settled per-asset task results of `Images::from`: one task per
`src` attribute (in scan order) followed by one task per `data-srcset`
attribute (in scan order), exactly as the two task vectors are chained
in the source. -/
def tasks (env : Env) (base : Url) (els : List ImgElement) :
    List (Except ImagesError Image) :=
  ((els.filterMap ImgElement.src).map (Image.handle_image_src env base)) ++
  ((els.filterMap ImgElement.srcset).map (Image.handle_image_srcset env))

/-- Embedding of `Images::from`: parse the base URL, scan the markup for
`img` elements, run every per-asset task, keep the successes only. -/
def fromHtml (env : Env) (html : String) (base_url : String) :
    Except ImagesError (List Image) :=
  match env.parse base_url with
  | none => .error .UrlError
  | some base =>
    .ok ((tasks env base (env.scan html)).filterMap resOk)

end Images

/-- Embedding of `WebPageError` from src/webpage.rs (payloads reduced to
a message for the io variant, dropped elsewhere). `IOError` embeds the
source variant named after std::io; the spec's PathExistsError is
`IOError "Output path already exists"`, the io error the source builds
at the precondition check. -/
inductive WebPageError
  | IOError (msg : String)
  | MarkdownConversionError
  | TaskFailed
  | TimeError
  | ImagesError (e : ImagesError)
  | AnyhowError
  | JsonConversionError
deriving DecidableEq, Repr

/-- Embedding of `InfoJson` from src/webpage.rs. -/
structure InfoJson where
  url : String
  title : String
  date : String
  nb_md_words : Nat
  nb_images : Nat
deriving DecidableEq, Repr

/-- Embedding of `WebPage` from src/webpage.rs (the browser-tab handle
is not carried; the PDF it can render is passed to the write operation
as a settled result). -/
structure WebPage where
  url : String
  title : String
  date : String
  html : String
  images : List Image
  markdown : String
  info_json : InfoJson
deriving DecidableEq, Repr

/-- A filesystem path, one segment per component. -/
abbrev Path := List String

/-- A filesystem node: a regular file with its bytes, or a directory. -/
inductive FsNode
  | file (content : List Nat)
  | dir
deriving DecidableEq, Repr

/-- The filesystem state: an association list from paths to nodes.
Insertion prepends, and lookup returns the first match, so a later
write to the same path shadows an earlier one (last writer wins). -/
abbrev Fs := List (Path × FsNode)

namespace Fs

/-- First-match lookup. -/
def lookup : Fs → Path → Option FsNode
  | [], _ => none
  | (q, n) :: fs, p => if p = q then some n else lookup fs p

/-- Model of `std::fs::create_dir`: fails when the path already exists
or its parent is not a directory (the root `[]` always exists). -/
def createDir (fs : Fs) (p : Path) : Option Fs :=
  if (lookup fs p).isSome then none
  else if p ≠ [] ∧ (p.dropLast = [] ∨ lookup fs p.dropLast = some .dir) then
    some ((p, .dir) :: fs)
  else none

/-- Model of `std::fs::write`: creates or overwrites a regular file;
fails when the path is a directory or the parent is not a directory. -/
def write (fs : Fs) (p : Path) (b : List Nat) : Option Fs :=
  match lookup fs p with
  | some .dir => none
  | _ =>
    if p ≠ [] ∧ (p.dropLast = [] ∨ lookup fs p.dropLast = some .dir) then
      some ((p, .file b) :: fs)
    else none

end Fs

/-- Bytes of a string written to disk (content is never inspected by the
claims; a character-to-codepoint map keeps the model executable). -/
def strBytes (s : String) : List Nat :=
  s.data.map Char.toNat

/-- Embedding of `serde_json::to_string_pretty` on `InfoJson` (the shape
of the record; serialization of this struct cannot fail). -/
def renderInfoJson (i : InfoJson) : String :=
  "\x7b\n  \"url\": \"" ++ i.url ++ "\",\n  \"title\": \"" ++ i.title ++
  "\",\n  \"date\": \"" ++ i.date ++ "\",\n  \"nb_md_words\": " ++
  toString i.nb_md_words ++ ",\n  \"nb_images\": " ++
  toString i.nb_images ++ "\n\x7d"

/-- Result of one joined write task together with the filesystem it
leaves behind (a failed task leaves the filesystem as it found it). -/
abbrev WriteStep := Except WebPageError Unit × Fs

namespace Image

/-- Embedding of `Image::write_to_disk`: one whole-file write of the
asset's bytes under its derived filename. -/
def write_to_disk (img : Image) (directory : Path) (fs : Fs) :
    Except ImagesError Unit × Fs :=
  match Fs.write fs (directory ++ [img.filename]) img.image_bytes with
  | none => (.error .IOError, fs)
  | some fs' => (.ok (), fs')

end Image

namespace Images

/-- The joined per-image write tasks of `Images::write_images_to_disk`,
in image order, collecting every settled result. -/
def writeImagesLoop (dir : Path) : List Image → Fs →
    List (Except ImagesError Unit) × Fs
  | [], fs => ([], fs)
  | img :: rest, fs =>
    let step := Image.write_to_disk img dir fs
    let next := writeImagesLoop dir rest step.2
    (step.1 :: next.1, next.2)

/-- First error of a list of settled results (the `for res in results
\x7b res? \x7d` loop of the source). -/
def firstErr {ε : Type} : List (Except ε Unit) → Except ε Unit
  | [] => .ok ()
  | .error e :: _ => .error e
  | .ok _ :: rest => firstErr rest

/-- Embedding of `Images::write_images_to_disk`: nothing at all happens
for an empty asset set; otherwise the `images` subdirectory is created
and every asset is written into it, all writes joined, the first error
reported after all have settled. -/
def write_images_to_disk (images : List Image) (output_directory : Path)
    (fs : Fs) : Except ImagesError Unit × Fs :=
  if images.length = 0 then (.ok (), fs)
  else
    let dir := output_directory ++ ["images"]
    match Fs.createDir fs dir with
    | none => (.error .IOError, fs)
    | some fs' =>
      let run := writeImagesLoop dir images fs'
      (firstErr run.1, run.2)

end Images

namespace WebPage

/-- Embedding of `WebPage::from_tab`, entered after the page snapshot
(url, title, markup) and the capture date have been obtained: start the
conversion and the asset phase, join both, then build the metadata
record from the settled results. `conv` is the pandoc boundary. -/
def from_tab (env : Env) (conv : String → Except WebPageError String)
    (today url title html : String) : Except WebPageError WebPage :=
  let mdRes := conv html
  let imagesRes := Images.fromHtml env html url
  match mdRes with
  | .error e => .error e
  | .ok md =>
    match imagesRes with
    | .error e => .error ( WebPageError.ImagesError e)
    | .ok images =>
      let info : InfoJson :=
        ⟨url, title, today, countWords md, images.length⟩
      .ok ⟨url, title, today, html, images, md, info⟩

/-- Embedding of `WebPage::output_html`. -/
def output_html (wp : WebPage) (output_path : Path) (fs : Fs) : WriteStep :=
  match Fs.write fs (output_path ++ [wp.title ++ ".html"])
      (strBytes wp.html) with
  | none => (.error ( WebPageError.IOError "write html"), fs)
  | some fs' => (.ok (), fs')

/-- Embedding of `WebPage::output_pdf`: render the tab to PDF (the
settled render result is `pdf`; `none` embeds a failed
`print_to_pdf`, surfaced as the anyhow variant), then write it. -/
def output_pdf (wp : WebPage) (pdf : Option (List Nat)) (output_path : Path)
    (fs : Fs) : WriteStep :=
  match pdf with
  | none => (.error WebPageError.AnyhowError, fs)
  | some bytes =>
    match Fs.write fs (output_path ++ [wp.title ++ ".pdf"]) bytes with
    | none => (.error ( WebPageError.IOError "write pdf"), fs)
    | some fs' => (.ok (), fs')

/-- Embedding of `WebPage::output_markdown`. -/
def output_markdown (wp : WebPage) (output_path : Path) (fs : Fs) :
    WriteStep :=
  match Fs.write fs (output_path ++ [wp.title ++ ".md"])
      (strBytes wp.markdown) with
  | none => (.error ( WebPageError.IOError "write md"), fs)
  | some fs' => (.ok (), fs')

/-- Embedding of `WebPage::output_info_json`. -/
def output_info_json (wp : WebPage) (output_path : Path) (fs : Fs) :
    WriteStep :=
  match Fs.write fs (output_path ++ ["informations.json"])
      (strBytes (renderInfoJson wp.info_json)) with
  | none => (.error ( WebPageError.IOError "write json"), fs)
  | some fs' => (.ok (), fs')

/-- Embedding of `WebPage::write_to_disk`: refuse an existing output
path before anything is written, create the directory, then issue the
five joined write tasks (raw markup, PDF, converted text, assets,
metadata record), and report the first error in issue order only after
every task has settled. -/
def write_to_disk (wp : WebPage) (pdf : Option (List Nat))
    (output_path : Path) (fs : Fs) : WriteStep :=
  if (Fs.lookup fs output_path).isSome then
    (.error ( WebPageError.IOError "Output path already exists"), fs)
  else
    match Fs.createDir fs output_path with
    | none => (.error ( WebPageError.IOError "create_dir"), fs)
    | some fs0 =>
      let s1 := output_html wp output_path fs0
      let s2 := output_pdf wp pdf output_path s1.2
      let s3 := output_markdown wp output_path s2.2
      let s4 :=
        match Images.write_images_to_disk wp.images output_path s3.2 with
        | (.error e, fs') => (Except.error ( WebPageError.ImagesError e), fs')
        | (.ok _, fs') => (Except.ok (), fs')
      let s5 := output_info_json wp output_path s4.2
      match s1.1 with
      | .error e => (.error e, s5.2)
      | .ok _ =>
        match s2.1 with
        | .error e => (.error e, s5.2)
        | .ok _ =>
          match s3.1 with
          | .error e => (.error e, s5.2)
          | .ok _ =>
            match s4.1 with
            | .error e => (.error e, s5.2)
            | .ok _ =>
              match s5.1 with
              | .error e => (.error e, s5.2)
              | .ok _ => (.ok (), s5.2)

end WebPage

/-- The spec's ImageReference sum type: a raw source string tagged with
exactly one of the three variants. In the source the tag is decided by
the attribute the scan loop read (`src` vs `data-srcset`) and, for
`src`, by the inline-data prefix test at the top of
`Image::handle_image_src`. -/
inductive ImageReference
  | inlineData (payload : String)
  | absoluteOrRelativeUrl (src : String)
  | srcsetCandidateList (srcset : String)
deriving DecidableEq, Repr

/-- Classification of a `src` attribute value, as performed by the
prefix test of `Image::handle_image_src`. -/
def classifySrc (src : String) : ImageReference :=
  if strStartsWith src "data:image" then .inlineData src
  else .absoluteOrRelativeUrl src

/-- The references created for one scanned `img` element: one per
present attribute, in the order the scan loop reads them. -/
def referencesOf (el : ImgElement) : List ImageReference :=
  (match el.src with
   | some s => [classifySrc s]
   | none => []) ++
  (match el.srcset with
   | some s => [ImageReference.srcsetCandidateList s]
   | none => [])

/-- All references of a scanned document, in task order: every
`src`-derived reference first, then every `data-srcset`-derived one,
matching the chaining of the two task vectors in `Images::from`. -/
def referencesAll (els : List ImgElement) : List ImageReference :=
  ((els.filterMap ImgElement.src).map classifySrc) ++
  ((els.filterMap ImgElement.srcset).map ImageReference.srcsetCandidateList)

/-- Resolution of one reference into its settled fetch task: the three
arms of the pipeline (inline decode, join-and-fetch, candidate-list
fetch). -/
def resolveRef (env : Env) (base : Url) : ImageReference →
    Except ImagesError Image
  | .inlineData s => Image.parse_data_url s
  | .absoluteOrRelativeUrl s =>
    match env.join base s with
    | none => .error .UrlError
    | some u => Image.fetch_image env.net u
  | .srcsetCandidateList s => Image.handle_image_srcset env s

/-- Spec-side count of whitespace-delimited tokens: the number of
positions that start a token (a non-whitespace character not preceded
by another non-whitespace character). The flag says whether a token is
already open. -/
def specTokenCount : List Char → Bool → Nat
  | [], _ => 0
  | c :: cs, inTok =>
    if c.isWhitespace then specTokenCount cs false
    else (if inTok then 0 else 1) + specTokenCount cs true

/-- The candidate URLs of a responsive candidate list: split on commas,
trim each entry, take its first whitespace-delimited token. -/
def candidatesOf (srcset : String) : List (List Char) :=
  ((splitOnChar ',' srcset.data).map trimChars).filterMap
    (fun entry => (wordsAux entry []).head?)

/-- Whether a candidate URL carries one of the four accepted image
extensions. -/
def isImageCandidate (url : List Char) : Bool :=
  listStartsWith url.reverse ".jpg".data.reverse ||
  listStartsWith url.reverse ".jpeg".data.reverse ||
  listStartsWith url.reverse ".png".data.reverse ||
  listStartsWith url.reverse ".webp".data.reverse

/-- The part of the persisted layout contributed by the assets: absent
for an empty asset set, otherwise the `images` directory and one file
entry per asset write, most recent first. -/
def imgPart (imgs : List Image) (out : Path) : Fs :=
  if imgs = [] then []
  else
    (imgs.reverse.map
      (fun i => (out ++ ["images", i.filename], FsNode.file i.image_bytes))) ++
    [(out ++ ["images"], FsNode.dir)]

/-- Concrete collaborator fixture: every URL parses to itself, joins
resolve to the joined source string, the network returns one byte for
every URL except the one spelled `bad`, and the scanner reports three
`img` elements of which the second resolves to the failing URL. -/
def fixEnv : Env :=
  ⟨fun s => some ⟨s, none⟩,
   fun _ s => some ⟨s, none⟩,
   fun u => if u.raw = "bad" then none else some [1],
   fun _ => [⟨some "a", none⟩, ⟨some "bad", none⟩, ⟨some "c", none⟩]⟩

/-- Concrete collaborator fixture with inert capabilities. -/
def fixEnvNone : Env :=
  ⟨fun _ => none, fun _ _ => none, fun _ => none, fun _ => []⟩

/-- Concrete conversion fixture: pandoc returns a two-word text. -/
def fixConv : String → Except WebPageError String :=
  fun _ => .ok "hello world"

/-- Concrete capture fixture with one fetched asset. -/
def fixWp : WebPage :=
  ⟨"u", "t", "d", "h", [⟨[1], "a.png"⟩], "m", ⟨"u", "t", "d", 1, 1⟩⟩

/-- Concrete capture fixture with no fetched asset. -/
def fixWpNoImg : WebPage :=
  ⟨"u", "t", "d", "h", [], "m", ⟨"u", "t", "d", 1, 0⟩⟩

theorem wordsAux_length (s : List Char) : ∀ acc : List Char,
    (wordsAux s acc).length =
      specTokenCount s (!acc.isEmpty) + (if acc = [] then 0 else 1) := by
  induction s with
  | nil =>
    intro acc
    by_cases h : acc = []
    · simp [wordsAux, specTokenCount, h]
    · simp [wordsAux, specTokenCount, h]
  | cons c cs ih =>
    intro acc
    by_cases hws : c.isWhitespace
    · by_cases h : acc = []
      · simp [wordsAux, specTokenCount, hws, h, ih]
      · simp only [wordsAux, specTokenCount, hws, if_true, h, if_false,
          List.length_cons, ih, List.isEmpty_iff]
        simp [h]
    · have hi := ih (c :: acc)
      simp at hi
      by_cases h : acc = []
      · simp [wordsAux, specTokenCount, hws, h]
        subst h
        omega
      · simp [wordsAux, specTokenCount, hws, h, List.isEmpty_iff]
        omega

/-- The embedded `split_whitespace().count()` equals the spec-side count
of whitespace-delimited tokens. -/
theorem countWords_eq_specTokenCount (s : String) :
    countWords s = specTokenCount s.data false := by
  have h := wordsAux_length s.data []
  simpa [countWords, wordsOf] using h

theorem splitOnceChar_append (body : List Char) : ∀ meta : List Char,
    ',' ∉ meta →
    splitOnceChar ',' (meta ++ ',' :: body) = some (meta, body) := by
  intro meta
  induction meta with
  | nil => intro _; simp [splitOnceChar]
  | cons x xs ih =>
    intro h
    have hx : ¬(x = ',') := fun e => h (by simp [e])
    have hxs : ',' ∉ xs := fun e => h (by simp [e])
    simp [splitOnceChar, hx, ih hxs]

theorem length_filterMap_resOk {ε α : Type} (l : List (Except ε α)) :
    (l.filterMap resOk).length + l.countP isErr = l.length := by
  induction l with
  | nil => rfl
  | cons a l ih =>
    cases a <;>
      simp [resOk, isErr, List.filterMap_cons, List.countP_cons] <;> omega

theorem find?_eq_head?_filter {α : Type} (p : α → Bool) (l : List α) :
    l.find? p = (l.filter p).head? := by
  induction l with
  | nil => rfl
  | cons a l ih =>
    by_cases h : p a
    · rw [List.find?_cons_of_pos _ h, List.filter_cons_of_pos h, List.head?_cons]
    · rw [List.find?_cons_of_neg _ h, List.filter_cons_of_neg h, ih]

/-- The selection of `extract_last_image_url` is the first matching
candidate of the reversed candidate list: the LAST matching candidate. -/
theorem extract_eq_find_rev (s : String) :
    Image.extract_last_image_url s =
      ((candidatesOf s).reverse.find? isImageCandidate).map String.mk := by
  have h1 : (candidatesOf s).reverse.find? isImageCandidate =
      ((candidatesOf s).reverse.filter isImageCandidate).head? :=
    find?_eq_head?_filter _ _
  rw [h1, List.filter_reverse, List.head?_reverse]
  rfl

theorem str_ne_of_getLast (a b : String)
    (h : a.data.getLast? ≠ b.data.getLast?) : a ≠ b :=
  fun e => h (by rw [e])

theorem concat_data_getLast (t u : String) (hu : u.data ≠ []) :
    (t ++ u).data.getLast? = u.data.getLast? := by
  rw [String.data_append, List.getLast?_append]
  obtain ⟨v, hv⟩ : ∃ v, u.data.getLast? = some v := by
    cases h : u.data.getLast? with
    | none => exact absurd (List.getLast?_eq_none_iff.mp h) hu
    | some v => exact ⟨v, rfl⟩
  rw [hv]
  rfl

theorem concat_ne_concat (t₁ t₂ u v : String) (hu : u.data ≠ [])
    (hv : v.data ≠ []) (h : u.data.getLast? ≠ v.data.getLast?) :
    t₁ ++ u ≠ t₂ ++ v :=
  str_ne_of_getLast _ _
    (by rw [concat_data_getLast _ _ hu, concat_data_getLast _ _ hv]; exact h)

theorem concat_ne_lit (t u v : String) (hu : u.data ≠ [])
    (h : u.data.getLast? ≠ v.data.getLast?) : t ++ u ≠ v :=
  str_ne_of_getLast _ _ (by rw [concat_data_getLast _ _ hu]; exact h)

theorem path_ne_single {out : Path} {a b : String} (h : a ≠ b) :
    out ++ [a] ≠ out ++ [b] := by
  simp [List.append_right_inj, h]

theorem path_ne_pair {out : Path} {a b c : String} :
    out ++ [a] ≠ out ++ [b, c] := by
  simp [List.append_right_inj]

theorem path_ne_base {out : Path} {a : String} : out ++ [a] ≠ out := by
  simp

theorem path_pair_ne_base {out : Path} {a b : String} :
    out ++ [a, b] ≠ out := by
  simp

namespace Fs

theorem lookup_cons_self (q : Path) (n : FsNode) (fs : Fs) :
    lookup ((q, n) :: fs) q = some n := by
  simp [lookup]

theorem lookup_cons_ne {p q : Path} (n : FsNode) (fs : Fs) (h : p ≠ q) :
    lookup ((q, n) :: fs) p = lookup fs p := by
  simp [lookup, h]

theorem lookup_isSome_iff (fs : Fs) (p : Path) :
    (lookup fs p).isSome ↔ ∃ n, (p, n) ∈ fs := by
  induction fs with
  | nil => simp [lookup]
  | cons e fs ih =>
    obtain ⟨q, n⟩ := e
    by_cases h : p = q
    · subst h
      simp [lookup_cons_self]
    · simp [lookup_cons_ne _ _ h, ih, h]

theorem lookup_append_skip {l : Fs} (fs : Fs) {p : Path}
    (h : ∀ e ∈ l, p ≠ e.1) :
    lookup (l ++ fs) p = lookup fs p := by
  induction l with
  | nil => rfl
  | cons e l ih =>
    rw [List.cons_append, lookup_cons_ne _ _ (h e (by simp))]
    exact ih (fun e' he' => h e' (by simp [he']))

theorem createDir_ok {fs : Fs} {p : Path} (h : lookup fs p = none)
    (hp : p ≠ [])
    (hpar : p.dropLast = [] ∨ lookup fs p.dropLast = some .dir) :
    createDir fs p = some ((p, .dir) :: fs) := by
  simp [createDir, h, hp, hpar]

theorem write_ok {fs : Fs} {p : Path} {b : List Nat}
    (hdir : lookup fs p ≠ some .dir) (hp : p ≠ [])
    (hpar : p.dropLast = [] ∨ lookup fs p.dropLast = some .dir) :
    write fs p b = some ((p, .file b) :: fs) := by
  unfold write
  cases h : lookup fs p with
  | none => simp [hp, hpar]
  | some n =>
    cases n with
    | dir => exact absurd h hdir
    | file c => simp [hp, hpar]

end Fs

theorem firstErr_map_ok {ε α : Type} (l : List α) :
    Images.firstErr (l.map (fun _ => (Except.ok () : Except ε Unit))) =
      Except.ok () := by
  induction l with
  | nil => rfl
  | cons a l ih => simpa [Images.firstErr] using ih

theorem writeImagesLoop_ok (dir : Path) (imgs : List Image) :
    ∀ fs : Fs, Fs.lookup fs dir = some .dir →
    (∀ f, Fs.lookup fs (dir ++ [f]) ≠ some FsNode.dir) →
    Images.writeImagesLoop dir imgs fs =
      (imgs.map (fun _ => Except.ok ()),
       (imgs.reverse.map
         (fun i => (dir ++ [i.filename], FsNode.file i.image_bytes))) ++ fs) := by
  induction imgs with
  | nil => intro fs _ _; rfl
  | cons img rest ih =>
    intro fs hdir hfiles
    have hw : Fs.write fs (dir ++ [img.filename]) img.image_bytes =
        some ((dir ++ [img.filename], .file img.image_bytes) :: fs) :=
      Fs.write_ok (hfiles _) (by simp)
        (Or.inr (by rw [List.dropLast_concat]; exact hdir))
    have hstep : Image.write_to_disk img dir fs =
        (.ok (), (dir ++ [img.filename], .file img.image_bytes) :: fs) := by
      simp [Image.write_to_disk, hw]
    have hdir' :
        Fs.lookup ((dir ++ [img.filename], FsNode.file img.image_bytes) :: fs)
          dir = some .dir := by
      rw [Fs.lookup_cons_ne _ _ (Ne.symm path_ne_base)]
      exact hdir
    have hfiles' : ∀ f,
        Fs.lookup ((dir ++ [img.filename], FsNode.file img.image_bytes) :: fs)
          (dir ++ [f]) ≠ some FsNode.dir := by
      intro f
      by_cases h : f = img.filename
      · subst h
        rw [Fs.lookup_cons_self]
        simp
      · rw [Fs.lookup_cons_ne _ _ (path_ne_single h)]
        exact hfiles f
    simp only [Images.writeImagesLoop, hstep, ih _ hdir' hfiles',
      List.map_cons, List.reverse_cons, List.map_append, List.map_cons,
      List.map_nil, List.append_assoc, List.singleton_append,
      List.cons_append, List.nil_append]

theorem write_images_ok (imgs : List Image) (out : Path) (fs : Fs)
    (hne : imgs ≠ [])
    (hdirnone : Fs.lookup fs (out ++ ["images"]) = none)
    (hout : Fs.lookup fs out = some .dir)
    (hfiles : ∀ f, Fs.lookup fs (out ++ ["images", f]) = none) :
    Images.write_images_to_disk imgs out fs =
      (.ok (),
       (imgs.reverse.map
         (fun i => (out ++ ["images", i.filename],
           FsNode.file i.image_bytes))) ++
       (out ++ ["images"], FsNode.dir) :: fs) := by
  have hcd : Fs.createDir fs (out ++ ["images"]) =
      some ((out ++ ["images"], .dir) :: fs) :=
    Fs.createDir_ok hdirnone (by simp)
      (Or.inr (by rw [List.dropLast_concat]; exact hout))
  have hdir' : Fs.lookup ((out ++ ["images"], FsNode.dir) :: fs)
      (out ++ ["images"]) = some .dir := Fs.lookup_cons_self _ _ _
  have hfiles' : ∀ f,
      Fs.lookup ((out ++ ["images"], FsNode.dir) :: fs)
        ((out ++ ["images"]) ++ [f]) ≠ some FsNode.dir := by
    intro f
    rw [Fs.lookup_cons_ne _ _ (@path_ne_base (out ++ ["images"]) f)]
    have h := hfiles f
    simp only [List.append_assoc, List.cons_append, List.nil_append]
    simp only [List.append_assoc, List.cons_append, List.nil_append] at h
    rw [h]
    simp
  have hloop := writeImagesLoop_ok (out ++ ["images"]) imgs _ hdir' hfiles'
  have hlen : ¬(imgs.length = 0) := by
    simpa [List.length_eq_zero] using hne
  simp only [Images.write_images_to_disk, hlen, if_false, hcd, hloop,
    firstErr_map_ok, List.append_assoc]
  simp [List.append_assoc]

theorem write_images_nil (out : Path) (fs : Fs) :
    Images.write_images_to_disk [] out fs = (.ok (), fs) := rfl

theorem npdf_html (t : String) : t ++ ".pdf" ≠ t ++ ".html" :=
  concat_ne_concat t t ".pdf" ".html" (by decide) (by decide) (by decide)

theorem nmd_html (t : String) : t ++ ".md" ≠ t ++ ".html" :=
  concat_ne_concat t t ".md" ".html" (by decide) (by decide) (by decide)

theorem nmd_pdf (t : String) : t ++ ".md" ≠ t ++ ".pdf" :=
  concat_ne_concat t t ".md" ".pdf" (by decide) (by decide) (by decide)

theorem nimg_html (t : String) : ("images" : String) ≠ t ++ ".html" :=
  Ne.symm (concat_ne_lit t ".html" "images" (by decide) (by decide))

theorem nimg_pdf (t : String) : ("images" : String) ≠ t ++ ".pdf" :=
  Ne.symm (concat_ne_lit t ".pdf" "images" (by decide) (by decide))

theorem nimg_md (t : String) : ("images" : String) ≠ t ++ ".md" :=
  Ne.symm (concat_ne_lit t ".md" "images" (by decide) (by decide))

theorem njson_html (t : String) :
    ("informations.json" : String) ≠ t ++ ".html" :=
  Ne.symm (concat_ne_lit t ".html" "informations.json" (by decide) (by decide))

theorem njson_pdf (t : String) : ("informations.json" : String) ≠ t ++ ".pdf" :=
  Ne.symm (concat_ne_lit t ".pdf" "informations.json" (by decide) (by decide))

theorem njson_md (t : String) : ("informations.json" : String) ≠ t ++ ".md" :=
  Ne.symm (concat_ne_lit t ".md" "informations.json" (by decide) (by decide))

theorem njson_img : ("informations.json" : String) ≠ "images" := by decide

theorem imgPart_paths {imgs : List Image} {out : Path} {e : Path × FsNode}
    (he : e ∈ imgPart imgs out) :
    e.1 = out ++ ["images"] ∨ ∃ i ∈ imgs, e.1 = out ++ ["images", i.filename] := by
  unfold imgPart at he
  by_cases h : imgs = []
  · simp [h] at he
  · simp only [h, if_false, List.mem_append, List.mem_map,
      List.mem_singleton] at he
    rcases he with ⟨i, hi, rfl⟩ | rfl
    · exact Or.inr ⟨i, List.mem_reverse.mp hi, rfl⟩
    · exact Or.inl rfl

theorem write_to_disk_run_ok (wp : WebPage) (pdfB : List Nat) (out : Path)
    (fs : Fs) (H : ∀ rest, Fs.lookup fs (out ++ rest) = none)
    (hout : out ≠ [])
    (hpar : out.dropLast = [] ∨ Fs.lookup fs out.dropLast = some .dir) :
    WebPage.write_to_disk wp (some pdfB) out fs =
      (.ok (),
       (out ++ ["informations.json"],
         FsNode.file (strBytes (renderInfoJson wp.info_json))) ::
       (imgPart wp.images out ++
        ((out ++ [wp.title ++ ".md"], FsNode.file (strBytes wp.markdown)) ::
         (out ++ [wp.title ++ ".pdf"], FsNode.file pdfB) ::
         (out ++ [wp.title ++ ".html"], FsNode.file (strBytes wp.html)) ::
         (out, FsNode.dir) :: fs))) := by
  have h0 : Fs.lookup fs out = none := by simpa using H []
  have hcd : Fs.createDir fs out = some ((out, FsNode.dir) :: fs) :=
    Fs.createDir_ok h0 hout hpar
  have hWA : Fs.write ((out, FsNode.dir) :: fs) (out ++ [wp.title ++ ".html"])
      (strBytes wp.html) =
      some ((out ++ [wp.title ++ ".html"], .file (strBytes wp.html)) ::
        (out, FsNode.dir) :: fs) := by
    apply Fs.write_ok
    · rw [Fs.lookup_cons_ne _ _ path_ne_base, H]
      simp
    · simp
    · refine Or.inr ?_
      rw [List.dropLast_concat, Fs.lookup_cons_self]
  have hA : WebPage.output_html wp out ((out, FsNode.dir) :: fs) =
      (.ok (), (out ++ [wp.title ++ ".html"], .file (strBytes wp.html)) ::
        (out, FsNode.dir) :: fs) := by
    simp [WebPage.output_html, hWA]
  have hWB : Fs.write
      ((out ++ [wp.title ++ ".html"], FsNode.file (strBytes wp.html)) ::
        (out, FsNode.dir) :: fs)
      (out ++ [wp.title ++ ".pdf"]) pdfB =
      some ((out ++ [wp.title ++ ".pdf"], .file pdfB) ::
        (out ++ [wp.title ++ ".html"], FsNode.file (strBytes wp.html)) ::
        (out, FsNode.dir) :: fs) := by
    apply Fs.write_ok
    · rw [Fs.lookup_cons_ne _ _ (path_ne_single (npdf_html wp.title)),
        Fs.lookup_cons_ne _ _ path_ne_base, H]
      simp
    · simp
    · refine Or.inr ?_
      rw [List.dropLast_concat,
        Fs.lookup_cons_ne _ _ (Ne.symm path_ne_base), Fs.lookup_cons_self]
  have hB : WebPage.output_pdf wp (some pdfB) out
      ((out ++ [wp.title ++ ".html"], FsNode.file (strBytes wp.html)) ::
        (out, FsNode.dir) :: fs) =
      (.ok (), (out ++ [wp.title ++ ".pdf"], .file pdfB) ::
        (out ++ [wp.title ++ ".html"], FsNode.file (strBytes wp.html)) ::
        (out, FsNode.dir) :: fs) := by
    simp [WebPage.output_pdf, hWB]
  have hWC : Fs.write
      ((out ++ [wp.title ++ ".pdf"], FsNode.file pdfB) ::
        (out ++ [wp.title ++ ".html"], FsNode.file (strBytes wp.html)) ::
        (out, FsNode.dir) :: fs)
      (out ++ [wp.title ++ ".md"]) (strBytes wp.markdown) =
      some ((out ++ [wp.title ++ ".md"], .file (strBytes wp.markdown)) ::
        (out ++ [wp.title ++ ".pdf"], FsNode.file pdfB) ::
        (out ++ [wp.title ++ ".html"], FsNode.file (strBytes wp.html)) ::
        (out, FsNode.dir) :: fs) := by
    apply Fs.write_ok
    · rw [Fs.lookup_cons_ne _ _ (path_ne_single (nmd_pdf wp.title)),
        Fs.lookup_cons_ne _ _ (path_ne_single (nmd_html wp.title)),
        Fs.lookup_cons_ne _ _ path_ne_base, H]
      simp
    · simp
    · refine Or.inr ?_
      rw [List.dropLast_concat,
        Fs.lookup_cons_ne _ _ (Ne.symm path_ne_base),
        Fs.lookup_cons_ne _ _ (Ne.symm path_ne_base), Fs.lookup_cons_self]
  have hC : WebPage.output_markdown wp out
      ((out ++ [wp.title ++ ".pdf"], FsNode.file pdfB) ::
        (out ++ [wp.title ++ ".html"], FsNode.file (strBytes wp.html)) ::
        (out, FsNode.dir) :: fs) =
      (.ok (), (out ++ [wp.title ++ ".md"], .file (strBytes wp.markdown)) ::
        (out ++ [wp.title ++ ".pdf"], FsNode.file pdfB) ::
        (out ++ [wp.title ++ ".html"], FsNode.file (strBytes wp.html)) ::
        (out, FsNode.dir) :: fs) := by
    simp [WebPage.output_markdown, hWC]
  have hImg : Images.write_images_to_disk wp.images out
      ((out ++ [wp.title ++ ".md"], FsNode.file (strBytes wp.markdown)) ::
        (out ++ [wp.title ++ ".pdf"], FsNode.file pdfB) ::
        (out ++ [wp.title ++ ".html"], FsNode.file (strBytes wp.html)) ::
        (out, FsNode.dir) :: fs) =
      (.ok (), imgPart wp.images out ++
        ((out ++ [wp.title ++ ".md"], FsNode.file (strBytes wp.markdown)) ::
         (out ++ [wp.title ++ ".pdf"], FsNode.file pdfB) ::
         (out ++ [wp.title ++ ".html"], FsNode.file (strBytes wp.html)) ::
         (out, FsNode.dir) :: fs)) := by
    by_cases h : wp.images = []
    · rw [h, write_images_nil]
      simp [imgPart]
    · have hd : Fs.lookup
          ((out ++ [wp.title ++ ".md"], FsNode.file (strBytes wp.markdown)) ::
            (out ++ [wp.title ++ ".pdf"], FsNode.file pdfB) ::
            (out ++ [wp.title ++ ".html"], FsNode.file (strBytes wp.html)) ::
            (out, FsNode.dir) :: fs) (out ++ ["images"]) = none := by
        rw [Fs.lookup_cons_ne _ _ (path_ne_single (nimg_md wp.title)),
          Fs.lookup_cons_ne _ _ (path_ne_single (nimg_pdf wp.title)),
          Fs.lookup_cons_ne _ _ (path_ne_single (nimg_html wp.title)),
          Fs.lookup_cons_ne _ _ path_ne_base, H]
      have ho : Fs.lookup
          ((out ++ [wp.title ++ ".md"], FsNode.file (strBytes wp.markdown)) ::
            (out ++ [wp.title ++ ".pdf"], FsNode.file pdfB) ::
            (out ++ [wp.title ++ ".html"], FsNode.file (strBytes wp.html)) ::
            (out, FsNode.dir) :: fs) out = some FsNode.dir := by
        rw [Fs.lookup_cons_ne _ _ (Ne.symm path_ne_base),
          Fs.lookup_cons_ne _ _ (Ne.symm path_ne_base),
          Fs.lookup_cons_ne _ _ (Ne.symm path_ne_base), Fs.lookup_cons_self]
      have hf : ∀ f, Fs.lookup
          ((out ++ [wp.title ++ ".md"], FsNode.file (strBytes wp.markdown)) ::
            (out ++ [wp.title ++ ".pdf"], FsNode.file pdfB) ::
            (out ++ [wp.title ++ ".html"], FsNode.file (strBytes wp.html)) ::
            (out, FsNode.dir) :: fs) (out ++ ["images", f]) = none := by
        intro f
        rw [Fs.lookup_cons_ne _ _ (Ne.symm path_ne_pair),
          Fs.lookup_cons_ne _ _ (Ne.symm path_ne_pair),
          Fs.lookup_cons_ne _ _ (Ne.symm path_ne_pair),
          Fs.lookup_cons_ne _ _ path_pair_ne_base, H]
      rw [write_images_ok wp.images out _ h hd ho hf]
      simp [imgPart, h, List.append_assoc]
  have hskipJ : ∀ e ∈ imgPart wp.images out,
      (out ++ ["informations.json"]) ≠ e.1 := by
    intro e he
    rcases imgPart_paths he with h1 | ⟨i, _, h2⟩
    · rw [h1]
      exact path_ne_single njson_img
    · rw [h2]
      exact path_ne_pair
  have hskipO : ∀ e ∈ imgPart wp.images out, out ≠ e.1 := by
    intro e he
    rcases imgPart_paths he with h1 | ⟨i, _, h2⟩
    · rw [h1]
      exact Ne.symm path_ne_base
    · rw [h2]
      exact Ne.symm path_pair_ne_base
  have hWE : Fs.write
      (imgPart wp.images out ++
        ((out ++ [wp.title ++ ".md"], FsNode.file (strBytes wp.markdown)) ::
         (out ++ [wp.title ++ ".pdf"], FsNode.file pdfB) ::
         (out ++ [wp.title ++ ".html"], FsNode.file (strBytes wp.html)) ::
         (out, FsNode.dir) :: fs))
      (out ++ ["informations.json"]) (strBytes (renderInfoJson wp.info_json)) =
      some ((out ++ ["informations.json"],
          .file (strBytes (renderInfoJson wp.info_json))) ::
        (imgPart wp.images out ++
          ((out ++ [wp.title ++ ".md"], FsNode.file (strBytes wp.markdown)) ::
           (out ++ [wp.title ++ ".pdf"], FsNode.file pdfB) ::
           (out ++ [wp.title ++ ".html"], FsNode.file (strBytes wp.html)) ::
           (out, FsNode.dir) :: fs))) := by
    apply Fs.write_ok
    · rw [Fs.lookup_append_skip _ hskipJ,
        Fs.lookup_cons_ne _ _ (path_ne_single (njson_md wp.title)),
        Fs.lookup_cons_ne _ _ (path_ne_single (njson_pdf wp.title)),
        Fs.lookup_cons_ne _ _ (path_ne_single (njson_html wp.title)),
        Fs.lookup_cons_ne _ _ path_ne_base, H]
      simp
    · simp
    · refine Or.inr ?_
      rw [List.dropLast_concat, Fs.lookup_append_skip _ hskipO,
        Fs.lookup_cons_ne _ _ (Ne.symm path_ne_base),
        Fs.lookup_cons_ne _ _ (Ne.symm path_ne_base),
        Fs.lookup_cons_ne _ _ (Ne.symm path_ne_base), Fs.lookup_cons_self]
  have hE : WebPage.output_info_json wp out
      (imgPart wp.images out ++
        ((out ++ [wp.title ++ ".md"], FsNode.file (strBytes wp.markdown)) ::
         (out ++ [wp.title ++ ".pdf"], FsNode.file pdfB) ::
         (out ++ [wp.title ++ ".html"], FsNode.file (strBytes wp.html)) ::
         (out, FsNode.dir) :: fs)) =
      (.ok (), (out ++ ["informations.json"],
          .file (strBytes (renderInfoJson wp.info_json))) ::
        (imgPart wp.images out ++
          ((out ++ [wp.title ++ ".md"], FsNode.file (strBytes wp.markdown)) ::
           (out ++ [wp.title ++ ".pdf"], FsNode.file pdfB) ::
           (out ++ [wp.title ++ ".html"], FsNode.file (strBytes wp.html)) ::
           (out, FsNode.dir) :: fs))) := by
    simp [WebPage.output_info_json, hWE]
  simp only [WebPage.write_to_disk, h0, Option.isSome_none,
    Bool.false_eq_true, if_false, hcd, hA, hB, hC, hImg, hE]

theorem write_to_disk_run_pdf_fail (wp : WebPage) (out : Path)
    (fs : Fs) (H : ∀ rest, Fs.lookup fs (out ++ rest) = none)
    (hout : out ≠ [])
    (hpar : out.dropLast = [] ∨ Fs.lookup fs out.dropLast = some .dir) :
    WebPage.write_to_disk wp none out fs =
      (.error WebPageError.AnyhowError,
       (out ++ ["informations.json"],
         FsNode.file (strBytes (renderInfoJson wp.info_json))) ::
       (imgPart wp.images out ++
        ((out ++ [wp.title ++ ".md"], FsNode.file (strBytes wp.markdown)) ::
         (out ++ [wp.title ++ ".html"], FsNode.file (strBytes wp.html)) ::
         (out, FsNode.dir) :: fs))) := by
  have h0 : Fs.lookup fs out = none := by simpa using H []
  have hcd : Fs.createDir fs out = some ((out, FsNode.dir) :: fs) :=
    Fs.createDir_ok h0 hout hpar
  have hWA : Fs.write ((out, FsNode.dir) :: fs) (out ++ [wp.title ++ ".html"])
      (strBytes wp.html) =
      some ((out ++ [wp.title ++ ".html"], .file (strBytes wp.html)) ::
        (out, FsNode.dir) :: fs) := by
    apply Fs.write_ok
    · rw [Fs.lookup_cons_ne _ _ path_ne_base, H]
      simp
    · simp
    · refine Or.inr ?_
      rw [List.dropLast_concat, Fs.lookup_cons_self]
  have hA : WebPage.output_html wp out ((out, FsNode.dir) :: fs) =
      (.ok (), (out ++ [wp.title ++ ".html"], .file (strBytes wp.html)) ::
        (out, FsNode.dir) :: fs) := by
    simp [WebPage.output_html, hWA]
  have hB : WebPage.output_pdf wp none out
      ((out ++ [wp.title ++ ".html"], FsNode.file (strBytes wp.html)) ::
        (out, FsNode.dir) :: fs) =
      (.error WebPageError.AnyhowError,
        (out ++ [wp.title ++ ".html"], FsNode.file (strBytes wp.html)) ::
        (out, FsNode.dir) :: fs) := rfl
  have hWC : Fs.write
      ((out ++ [wp.title ++ ".html"], FsNode.file (strBytes wp.html)) ::
        (out, FsNode.dir) :: fs)
      (out ++ [wp.title ++ ".md"]) (strBytes wp.markdown) =
      some ((out ++ [wp.title ++ ".md"], .file (strBytes wp.markdown)) ::
        (out ++ [wp.title ++ ".html"], FsNode.file (strBytes wp.html)) ::
        (out, FsNode.dir) :: fs) := by
    apply Fs.write_ok
    · rw [Fs.lookup_cons_ne _ _ (path_ne_single (nmd_html wp.title)),
        Fs.lookup_cons_ne _ _ path_ne_base, H]
      simp
    · simp
    · refine Or.inr ?_
      rw [List.dropLast_concat,
        Fs.lookup_cons_ne _ _ (Ne.symm path_ne_base), Fs.lookup_cons_self]
  have hC : WebPage.output_markdown wp out
      ((out ++ [wp.title ++ ".html"], FsNode.file (strBytes wp.html)) ::
        (out, FsNode.dir) :: fs) =
      (.ok (), (out ++ [wp.title ++ ".md"], .file (strBytes wp.markdown)) ::
        (out ++ [wp.title ++ ".html"], FsNode.file (strBytes wp.html)) ::
        (out, FsNode.dir) :: fs) := by
    simp [WebPage.output_markdown, hWC]
  have hImg : Images.write_images_to_disk wp.images out
      ((out ++ [wp.title ++ ".md"], FsNode.file (strBytes wp.markdown)) ::
        (out ++ [wp.title ++ ".html"], FsNode.file (strBytes wp.html)) ::
        (out, FsNode.dir) :: fs) =
      (.ok (), imgPart wp.images out ++
        ((out ++ [wp.title ++ ".md"], FsNode.file (strBytes wp.markdown)) ::
         (out ++ [wp.title ++ ".html"], FsNode.file (strBytes wp.html)) ::
         (out, FsNode.dir) :: fs)) := by
    by_cases h : wp.images = []
    · rw [h, write_images_nil]
      simp [imgPart]
    · have hd : Fs.lookup
          ((out ++ [wp.title ++ ".md"], FsNode.file (strBytes wp.markdown)) ::
            (out ++ [wp.title ++ ".html"], FsNode.file (strBytes wp.html)) ::
            (out, FsNode.dir) :: fs) (out ++ ["images"]) = none := by
        rw [Fs.lookup_cons_ne _ _ (path_ne_single (nimg_md wp.title)),
          Fs.lookup_cons_ne _ _ (path_ne_single (nimg_html wp.title)),
          Fs.lookup_cons_ne _ _ path_ne_base, H]
      have ho : Fs.lookup
          ((out ++ [wp.title ++ ".md"], FsNode.file (strBytes wp.markdown)) ::
            (out ++ [wp.title ++ ".html"], FsNode.file (strBytes wp.html)) ::
            (out, FsNode.dir) :: fs) out = some FsNode.dir := by
        rw [Fs.lookup_cons_ne _ _ (Ne.symm path_ne_base),
          Fs.lookup_cons_ne _ _ (Ne.symm path_ne_base), Fs.lookup_cons_self]
      have hf : ∀ f, Fs.lookup
          ((out ++ [wp.title ++ ".md"], FsNode.file (strBytes wp.markdown)) ::
            (out ++ [wp.title ++ ".html"], FsNode.file (strBytes wp.html)) ::
            (out, FsNode.dir) :: fs) (out ++ ["images", f]) = none := by
        intro f
        rw [Fs.lookup_cons_ne _ _ (Ne.symm path_ne_pair),
          Fs.lookup_cons_ne _ _ (Ne.symm path_ne_pair),
          Fs.lookup_cons_ne _ _ path_pair_ne_base, H]
      rw [write_images_ok wp.images out _ h hd ho hf]
      simp [imgPart, h, List.append_assoc]
  have hskipJ : ∀ e ∈ imgPart wp.images out,
      (out ++ ["informations.json"]) ≠ e.1 := by
    intro e he
    rcases imgPart_paths he with h1 | ⟨i, _, h2⟩
    · rw [h1]
      exact path_ne_single njson_img
    · rw [h2]
      exact path_ne_pair
  have hskipO : ∀ e ∈ imgPart wp.images out, out ≠ e.1 := by
    intro e he
    rcases imgPart_paths he with h1 | ⟨i, _, h2⟩
    · rw [h1]
      exact Ne.symm path_ne_base
    · rw [h2]
      exact Ne.symm path_pair_ne_base
  have hWE : Fs.write
      (imgPart wp.images out ++
        ((out ++ [wp.title ++ ".md"], FsNode.file (strBytes wp.markdown)) ::
         (out ++ [wp.title ++ ".html"], FsNode.file (strBytes wp.html)) ::
         (out, FsNode.dir) :: fs))
      (out ++ ["informations.json"]) (strBytes (renderInfoJson wp.info_json)) =
      some ((out ++ ["informations.json"],
          .file (strBytes (renderInfoJson wp.info_json))) ::
        (imgPart wp.images out ++
          ((out ++ [wp.title ++ ".md"], FsNode.file (strBytes wp.markdown)) ::
           (out ++ [wp.title ++ ".html"], FsNode.file (strBytes wp.html)) ::
           (out, FsNode.dir) :: fs))) := by
    apply Fs.write_ok
    · rw [Fs.lookup_append_skip _ hskipJ,
        Fs.lookup_cons_ne _ _ (path_ne_single (njson_md wp.title)),
        Fs.lookup_cons_ne _ _ (path_ne_single (njson_html wp.title)),
        Fs.lookup_cons_ne _ _ path_ne_base, H]
      simp
    · simp
    · refine Or.inr ?_
      rw [List.dropLast_concat, Fs.lookup_append_skip _ hskipO,
        Fs.lookup_cons_ne _ _ (Ne.symm path_ne_base),
        Fs.lookup_cons_ne _ _ (Ne.symm path_ne_base), Fs.lookup_cons_self]
  have hE : WebPage.output_info_json wp out
      (imgPart wp.images out ++
        ((out ++ [wp.title ++ ".md"], FsNode.file (strBytes wp.markdown)) ::
         (out ++ [wp.title ++ ".html"], FsNode.file (strBytes wp.html)) ::
         (out, FsNode.dir) :: fs)) =
      (.ok (), (out ++ ["informations.json"],
          .file (strBytes (renderInfoJson wp.info_json))) ::
        (imgPart wp.images out ++
          ((out ++ [wp.title ++ ".md"], FsNode.file (strBytes wp.markdown)) ::
           (out ++ [wp.title ++ ".html"], FsNode.file (strBytes wp.html)) ::
           (out, FsNode.dir) :: fs))) := by
    simp [WebPage.output_info_json, hWE]
  simp only [WebPage.write_to_disk, h0, Option.isSome_none,
    Bool.false_eq_true, if_false, hcd, hA, hB, hC, hImg, hE]

theorem splitOnceChar_none {c : Char} : ∀ l : List Char, c ∉ l →
    splitOnceChar c l = none := by
  intro l
  induction l with
  | nil => intro _; rfl
  | cons x xs ih =>
    intro h
    have hx : ¬(x = c) := fun e => h (by simp [e])
    have hxs : c ∉ xs := fun e => h (by simp [e])
    simp [splitOnceChar, hx, ih hxs]

theorem parse_data_url_split (meta body : String) (h : ',' ∉ meta.data) :
    Image.parse_data_url (meta ++ "," ++ body) =
      (match b64DecodeAux body.data with
       | none => .error .Base64Error
       | some bytes =>
         .ok ⟨bytes, String.mk ("inline.".data ++
           (((splitOnChar '/'
               ((splitOnChar ';' meta.data).headD [])).get? 1).getD
             "img".data))⟩) := by
  unfold Image.parse_data_url
  have hd : (meta ++ "," ++ body).data = meta.data ++ ',' :: body.data := by
    rw [String.data_append, String.data_append]
    simp
  rw [hd, splitOnceChar_append _ _ h]

/-- C1: when the conversion task and every fetch task settle
successfully, the capture succeeds and its metadata record has
`nb_md_words` equal to the number of whitespace-delimited tokens of the
converted text (the spec-side token-start count) and `nb_images` equal
to the number of successful fetch results; both are computed by
`from_tab` from the settled results of the joined conversion and fetch
phases. -/
theorem c1_metadata_counts (env : Env)
    (conv : String → Except WebPageError String)
    (today url title html md : String) (base : Url)
    (hb : env.parse url = some base) (hmd : conv html = .ok md) :
    ∃ wp : WebPage, WebPage.from_tab env conv today url title html = .ok wp ∧
      wp.markdown = md ∧
      wp.info_json.nb_md_words = specTokenCount wp.markdown.data false ∧
      wp.info_json.nb_images =
        ((Images.tasks env base (env.scan html)).filterMap resOk).length := by
  have himg : Images.fromHtml env html url =
      .ok ((Images.tasks env base (env.scan html)).filterMap resOk) := by
    simp [Images.fromHtml, hb]
  refine ⟨⟨url, title, today, html,
      (Images.tasks env base (env.scan html)).filterMap resOk, md,
      ⟨url, title, today, countWords md,
        ((Images.tasks env base (env.scan html)).filterMap resOk).length⟩⟩,
    ?_, rfl, ?_, rfl⟩
  · simp [WebPage.from_tab, hmd, himg]
  · exact countWords_eq_specTokenCount md

/-- Witness for C1 at a concrete capture: two-word conversion output and
one successful fetch out of three. -/
theorem c1_metadata_counts_witness :
    ∃ wp : WebPage, WebPage.from_tab fixEnv fixConv "d" "u" "t" "h" = .ok wp ∧
      wp.markdown = "hello world" ∧
      wp.info_json.nb_md_words = specTokenCount wp.markdown.data false ∧
      wp.info_json.nb_images =
        ((Images.tasks fixEnv ⟨"u", none⟩ (fixEnv.scan "h")).filterMap
          resOk).length :=
  c1_metadata_counts fixEnv fixConv "d" "u" "t" "h" "hello world"
    ⟨"u", none⟩ rfl rfl

/-- C2: per-asset fetch failures are caught at the fetch boundary:
`Images::from` succeeds whenever the base URL parses, its result is
exactly the successes of the settled tasks, the success count plus the
failure count equals the task count (so with exactly one failure among
N tasks the asset set has N - 1 members), and the asset count never
exceeds the descriptor count. -/
theorem c2_fetch_failure_isolation (env : Env) (html base_url : String)
    (base : Url) (hb : env.parse base_url = some base) :
    Images.fromHtml env html base_url =
      .ok ((Images.tasks env base (env.scan html)).filterMap resOk) ∧
    ((Images.tasks env base (env.scan html)).filterMap resOk).length +
        (Images.tasks env base (env.scan html)).countP isErr =
      (Images.tasks env base (env.scan html)).length ∧
    ((Images.tasks env base (env.scan html)).countP isErr = 1 →
      ((Images.tasks env base (env.scan html)).filterMap resOk).length + 1 =
        (Images.tasks env base (env.scan html)).length) ∧
    ((Images.tasks env base (env.scan html)).filterMap resOk).length ≤
      (Images.tasks env base (env.scan html)).length := by
  refine ⟨by simp [Images.fromHtml, hb], length_filterMap_resOk _, ?_, ?_⟩
  · intro h
    have h2 := length_filterMap_resOk (Images.tasks env base (env.scan html))
    rw [h] at h2
    exact h2
  · exact Nat.le.intro (length_filterMap_resOk _)

/-- Witness for C2: three concurrent fetches of which exactly one fails
with a transport error; the capture still succeeds and keeps the two
successes. -/
theorem c2_fetch_failure_isolation_witness :
    Images.fromHtml fixEnv "h" "u" =
      .ok ((Images.tasks fixEnv ⟨"u", none⟩ (fixEnv.scan "h")).filterMap
        resOk) ∧
    ((Images.tasks fixEnv ⟨"u", none⟩ (fixEnv.scan "h")).filterMap
      resOk).length + 1 =
      (Images.tasks fixEnv ⟨"u", none⟩ (fixEnv.scan "h")).length := by
  have h := c2_fetch_failure_isolation fixEnv "h" "u" ⟨"u", none⟩ rfl
  exact ⟨h.1, h.2.2.1 rfl⟩

/-- C3: responsive candidate-list resolution splits on commas, trims,
takes the first whitespace token of each entry, keeps image-extension
candidates, and selects the last match (the first match of the reversed
candidate list); with no matching candidate it fails with the srcset
error; on the spec's example it selects `b.jpg`. -/
theorem c3_srcset_selection :
    (∀ s : String, Image.extract_last_image_url s =
        ((candidatesOf s).reverse.find? isImageCandidate).map String.mk) ∧
    (∀ s : String, (Image.extract_last_image_url s = none ↔
        ∀ c ∈ candidatesOf s, isImageCandidate c = false)) ∧
    (∀ (env : Env) (s : String), Image.extract_last_image_url s = none →
        Image.handle_image_srcset env s = .error .SrcsetError) ∧
    Image.extract_last_image_url "a.png 100w, b.jpg 200w, c.txt 300w" =
      some "b.jpg" := by
  refine ⟨extract_eq_find_rev, ?_, ?_, by decide⟩
  · intro s
    have hdef : Image.extract_last_image_url s =
        ((candidatesOf s).filter isImageCandidate).getLast?.map String.mk :=
      rfl
    rw [hdef]
    simp [Option.map_eq_none', List.getLast?_eq_none_iff,
      List.filter_eq_nil_iff]
  · intro env s h
    simp [Image.handle_image_srcset, h]

/-- Witness for C3: a candidate list with no image-extension candidate
fails with the srcset error, and the spec's example selects `b.jpg`. -/
theorem c3_srcset_selection_witness :
    Image.handle_image_srcset fixEnvNone "a.txt 1x" =
      .error .SrcsetError ∧
    Image.extract_last_image_url "a.png 100w, b.jpg 200w, c.txt 300w" =
      some "b.jpg" :=
  ⟨c3_srcset_selection.2.2.1 fixEnvNone "a.txt 1x" (by decide),
   c3_srcset_selection.2.2.2⟩

/-- C4: inline payloads are split at the first comma; a payload without
a comma fails with the comma-format error; a valid Base64 body after a
`data:image/png;base64` header decodes to a filename `inline.png`
ending in `.png`; a missing subtype defaults to `img`; a body that is
not valid standard Base64 fails with the decode error. -/
theorem c4_inline_decode :
    (∀ s : String, ',' ∉ s.data →
        Image.parse_data_url s = .error .Base24CommaError) ∧
    (∀ (body : String) (bytes : List Nat),
        b64DecodeAux body.data = some bytes →
        Image.parse_data_url ("data:image/png;base64," ++ body) =
          .ok ⟨bytes, "inline.png"⟩ ∧
        strEndsWith "inline.png" ".png" = true) ∧
    (∀ (body : String) (bytes : List Nat),
        b64DecodeAux body.data = some bytes →
        Image.parse_data_url ("data:," ++ body) = .ok ⟨bytes, "inline.img"⟩) ∧
    (∀ meta body : String, ',' ∉ meta.data → b64DecodeAux body.data = none →
        Image.parse_data_url (meta ++ "," ++ body) = .error .Base64Error) := by
  refine ⟨?_, ?_, ?_, ?_⟩
  · intro s h
    unfold Image.parse_data_url
    rw [splitOnceChar_none _ h]
  · intro body bytes hb
    refine ⟨?_, by decide⟩
    show Image.parse_data_url ("data:image/png;base64" ++ "," ++ body) = _
    rw [parse_data_url_split "data:image/png;base64" body (by decide), hb]
    rfl
  · intro body bytes hb
    show Image.parse_data_url ("data:" ++ "," ++ body) = _
    rw [parse_data_url_split "data:" body (by decide), hb]
    rfl
  · intro meta body h hn
    rw [parse_data_url_split meta body h, hn]

/-- Witness for C4 at concrete payloads: no comma, a valid body, a
subtype-free header, and a malformed body. -/
theorem c4_inline_decode_witness :
    Image.parse_data_url "nocomma" = .error .Base24CommaError ∧
    Image.parse_data_url "data:image/png;base64,AAAA" =
      .ok ⟨[0, 0, 0], "inline.png"⟩ ∧
    Image.parse_data_url "data:,AAAA" = .ok ⟨[0, 0, 0], "inline.img"⟩ ∧
    Image.parse_data_url "data:image/png;base64,@@@@" =
      .error .Base64Error := by
  refine ⟨c4_inline_decode.1 "nocomma" (by decide), ?_, ?_, ?_⟩
  · exact (c4_inline_decode.2.1 "AAAA" [0, 0, 0] rfl).1
  · exact c4_inline_decode.2.2.1 "AAAA" [0, 0, 0] rfl
  · exact c4_inline_decode.2.2.2 "data:image/png;base64" "@@@@"
      (by decide) rfl

/-- C5: a disk write against an output path that already exists (the
source checks both the file and the directory case through the same
lookup) fails with the path-exists error before any write, leaving the
filesystem exactly as it was. -/
theorem c5_path_exists_guard (wp : WebPage) (pdf : Option (List Nat))
    (out : Path) (fs : Fs) (h : (Fs.lookup fs out).isSome = true) :
    WebPage.write_to_disk wp pdf out fs =
      (.error ( WebPageError.IOError "Output path already exists"), fs) := by
  simp [WebPage.write_to_disk, h]

/-- Witness for C5: an existing directory at the output path. -/
theorem c5_path_exists_guard_witness :
    WebPage.write_to_disk fixWp (some [9]) ["out"] [(["out"], FsNode.dir)] =
      (.error ( WebPageError.IOError "Output path already exists"),
       [(["out"], FsNode.dir)]) :=
  c5_path_exists_guard fixWp (some [9]) ["out"] [(["out"], FsNode.dir)] rfl

/-- C6: a failed markup-to-text conversion aborts the whole capture
with the conversion task's error, whatever the asset phase did. -/
theorem c6_conversion_aborts (env : Env)
    (conv : String → Except WebPageError String)
    (today url title html : String) (e : WebPageError)
    (h : conv html = .error e) :
    WebPage.from_tab env conv today url title html = .error e := by
  simp [WebPage.from_tab, h]

/-- Witness for C6: a conversion that fails while every fetch would
succeed. -/
theorem c6_conversion_aborts_witness :
    WebPage.from_tab fixEnv
      (fun _ => .error WebPageError.MarkdownConversionError)
      "d" "u" "t" "h" = .error WebPageError.MarkdownConversionError :=
  c6_conversion_aborts fixEnv _ "d" "u" "t" "h"
    WebPageError.MarkdownConversionError rfl

/-- C9 counterexample: an `img` element carrying both a `src` and a
`data-srcset` attribute contributes two references (and so two resolved
descriptors), not exactly one as the claim states. -/
theorem c9_counterexample :
    (referencesOf ⟨some "x.png", some "y.png 1x"⟩).length = 2 ∧
    ¬((referencesOf ⟨some "x.png", some "y.png 1x"⟩).length = 1) := by
  decide

/-- C9 amended: each scanned image element contributes one reference
per present attribute (one classified from `src`, one tagged as a
candidate list from `data-srcset`), every settled task is the
resolution of exactly one reference, and the total reference count is
the sum of the per-element counts. -/
theorem c9_amended_references :
    (∀ el : ImgElement, (referencesOf el).length =
        (if el.src.isSome then 1 else 0) +
        (if el.srcset.isSome then 1 else 0)) ∧
    (∀ (env : Env) (base : Url) (els : List ImgElement),
        Images.tasks env base els =
          (referencesAll els).map (resolveRef env base)) ∧
    (∀ els : List ImgElement, (referencesAll els).length =
        (els.map (fun el => (referencesOf el).length)).sum) := by
  refine ⟨?_, ?_, ?_⟩
  · rintro ⟨s, ss⟩
    cases s <;> cases ss <;> simp [referencesOf]
  · intro env base els
    have h1 : ∀ s, Image.handle_image_src env base s =
        resolveRef env base (classifySrc s) := by
      intro s
      by_cases h : strStartsWith s "data:image" = true
      · simp [Image.handle_image_src, classifySrc, h, resolveRef]
      · simp [Image.handle_image_src, classifySrc, h, resolveRef]
    simp only [Images.tasks, referencesAll, List.map_append, List.map_map]
    refine congrArg₂ (· ++ ·) ?_ rfl
    exact List.map_congr_left (fun s _ => h1 s)
  · intro els
    induction els with
    | nil => rfl
    | cons el els ih =>
      rcases el with ⟨s, ss⟩
      cases s <;> cases ss <;>
        simp [referencesAll, List.filterMap_cons, referencesOf] at ih ⊢ <;>
        omega

/-- C10: writing an empty asset set performs no filesystem action at
all and reports success, and a full capture write with zero assets
produces no `images` directory in the output. -/
theorem c10_zero_images_no_dir :
    (∀ (out : Path) (fs : Fs),
        Images.write_images_to_disk [] out fs = (.ok (), fs)) ∧
    (∀ (wp : WebPage) (pdfB : List Nat) (out : Path) (fs : Fs),
        (∀ rest, Fs.lookup fs (out ++ rest) = none) → out ≠ [] →
        (out.dropLast = [] ∨ Fs.lookup fs out.dropLast = some .dir) →
        wp.images = [] →
        (WebPage.write_to_disk wp (some pdfB) out fs).1 = .ok () ∧
        Fs.lookup (WebPage.write_to_disk wp (some pdfB) out fs).2
          (out ++ ["images"]) = none) := by
  refine ⟨fun out fs => rfl, ?_⟩
  intro wp pdfB out fs H hout hpar himg
  rw [write_to_disk_run_ok wp pdfB out fs H hout hpar]
  refine ⟨rfl, ?_⟩
  have himgPart : imgPart wp.images out = [] := by simp [imgPart, himg]
  rw [Fs.lookup_cons_ne _ _ (path_ne_single (Ne.symm njson_img)), himgPart,
    List.nil_append,
    Fs.lookup_cons_ne _ _ (path_ne_single (nimg_md wp.title)),
    Fs.lookup_cons_ne _ _ (path_ne_single (nimg_pdf wp.title)),
    Fs.lookup_cons_ne _ _ (path_ne_single (nimg_html wp.title)),
    Fs.lookup_cons_ne _ _ path_ne_base, H]

/-- Witness for C10 at a concrete zero-asset capture on an empty
filesystem. -/
theorem c10_zero_images_no_dir_witness :
    Images.write_images_to_disk [] ["out"] [] = (.ok (), []) ∧
    (WebPage.write_to_disk fixWpNoImg (some [9]) ["out"] []).1 = .ok () ∧
    Fs.lookup (WebPage.write_to_disk fixWpNoImg (some [9]) ["out"] []).2
      (["out"] ++ ["images"]) = none := by
  have h := c10_zero_images_no_dir.2 fixWpNoImg [9] ["out"] []
    (fun _ => rfl) (by decide) (Or.inl rfl) rfl
  exact ⟨c10_zero_images_no_dir.1 ["out"] [], h.1, h.2⟩

/-- C8: when one of the joined write tasks fails (here the PDF render
of the second task), the operation still attempts every other write —
the converted text, metadata record and every asset file issued after
the failing task are all on disk — and only then reports the first
error in issue order; nothing already written is rolled back. -/
theorem c8_join_no_rollback (wp : WebPage) (out : Path) (fs : Fs)
    (H : ∀ rest, Fs.lookup fs (out ++ rest) = none) (hout : out ≠ [])
    (hpar : out.dropLast = [] ∨ Fs.lookup fs out.dropLast = some .dir) :
    (WebPage.write_to_disk wp none out fs).1 =
      .error WebPageError.AnyhowError ∧
    ((WebPage.write_to_disk wp none out fs).2.lookup
        (out ++ [wp.title ++ ".html"])).isSome = true ∧
    ((WebPage.write_to_disk wp none out fs).2.lookup
        (out ++ [wp.title ++ ".md"])).isSome = true ∧
    ((WebPage.write_to_disk wp none out fs).2.lookup
        (out ++ ["informations.json"])).isSome = true ∧
    (∀ i ∈ wp.images, ((WebPage.write_to_disk wp none out fs).2.lookup
        (out ++ ["images", i.filename])).isSome = true) := by
  rw [write_to_disk_run_pdf_fail wp out fs H hout hpar]
  refine ⟨rfl, ?_, ?_, ?_, ?_⟩
  · exact (Fs.lookup_isSome_iff _ _).mpr
      ⟨FsNode.file (strBytes wp.html),
       List.mem_cons_of_mem _ (List.mem_append_right _ (by simp))⟩
  · exact (Fs.lookup_isSome_iff _ _).mpr
      ⟨FsNode.file (strBytes wp.markdown),
       List.mem_cons_of_mem _ (List.mem_append_right _ (by simp))⟩
  · exact (Fs.lookup_isSome_iff _ _).mpr ⟨_, List.mem_cons_self _ _⟩
  · intro i hi
    have hne : wp.images ≠ [] := List.ne_nil_of_mem hi
    have hmem : (out ++ ["images", i.filename], FsNode.file i.image_bytes) ∈
        imgPart wp.images out := by
      simp only [imgPart, hne, if_false]
      exact List.mem_append_left _
        (List.mem_map.mpr ⟨i, List.mem_reverse.mpr hi, rfl⟩)
    exact (Fs.lookup_isSome_iff _ _).mpr
      ⟨_, List.mem_cons_of_mem _ (List.mem_append_left _ hmem)⟩

/-- Witness for C8 at a concrete capture whose PDF render fails on an
empty filesystem. -/
theorem c8_join_no_rollback_witness :
    (WebPage.write_to_disk fixWp none ["out"] []).1 =
      .error WebPageError.AnyhowError ∧
    ((WebPage.write_to_disk fixWp none ["out"] []).2.lookup
        (["out"] ++ [fixWp.title ++ ".html"])).isSome = true ∧
    ((WebPage.write_to_disk fixWp none ["out"] []).2.lookup
        (["out"] ++ [fixWp.title ++ ".md"])).isSome = true ∧
    ((WebPage.write_to_disk fixWp none ["out"] []).2.lookup
        (["out"] ++ ["informations.json"])).isSome = true ∧
    (∀ i ∈ fixWp.images, ((WebPage.write_to_disk fixWp none ["out"] []).2.lookup
        (["out"] ++ ["images", i.filename])).isSome = true) :=
  c8_join_no_rollback fixWp ["out"] [] (fun _ => rfl) (by decide)
    (Or.inl rfl)

/-- C7 counterexample: a successful capture write also creates the
rendered PDF file `<title>.pdf`, an artifact absent from the claim's
exhaustive list, so the output directory does not contain exactly the
four listed artifacts; and a successful zero-asset capture write
creates no `images` subdirectory at all, against the claim's
unconditional images entry. -/
theorem c7_counterexample :
    (WebPage.write_to_disk fixWp (some [9]) ["out"] []).1 = .ok () ∧
    ((WebPage.write_to_disk fixWp (some [9]) ["out"] []).2.lookup
        ["out", "t.pdf"]).isSome = true ∧
    ("t.pdf" ≠ "t" ++ ".html" ∧ "t.pdf" ≠ "t" ++ ".md" ∧
     "t.pdf" ≠ "informations.json" ∧ "t.pdf" ≠ "images") ∧
    (WebPage.write_to_disk fixWpNoImg (some [9]) ["out"] []).1 = .ok () ∧
    (WebPage.write_to_disk fixWpNoImg (some [9]) ["out"] []).2.lookup
      ["out", "images"] = none :=
  ⟨rfl, rfl, by decide, rfl, rfl⟩

/-- C7 amended: on every successful capture write into a fresh output
path, the output directory contains exactly the raw-markup file, the
rendered PDF, the converted-text file, the metadata record, and — only
when at least one asset was fetched — an `images` subdirectory holding
exactly one file per distinct derived asset filename. -/
theorem c7_amended_layout (wp : WebPage) (pdfB : List Nat) (out : Path)
    (fs : Fs) (H : ∀ rest, Fs.lookup fs (out ++ rest) = none)
    (hout : out ≠ [])
    (hpar : out.dropLast = [] ∨ Fs.lookup fs out.dropLast = some .dir) :
    (WebPage.write_to_disk wp (some pdfB) out fs).1 = .ok () ∧
    (∀ name : String,
      ((WebPage.write_to_disk wp (some pdfB) out fs).2.lookup
          (out ++ [name])).isSome ↔
        (name = wp.title ++ ".html" ∨ name = wp.title ++ ".pdf" ∨
         name = wp.title ++ ".md" ∨ name = "informations.json" ∨
         (name = "images" ∧ wp.images ≠ []))) ∧
    (∀ f : String,
      ((WebPage.write_to_disk wp (some pdfB) out fs).2.lookup
          (out ++ ["images", f])).isSome ↔
        f ∈ wp.images.map Image.filename) := by
  rw [write_to_disk_run_ok wp pdfB out fs H hout hpar]
  refine ⟨rfl, ?_, ?_⟩
  · intro name
    rw [Fs.lookup_isSome_iff]
    constructor
    · rintro ⟨n, hn⟩
      rcases List.mem_cons.mp hn with h1 | h1
      · simp only [Prod.mk.injEq, List.append_right_inj,
          List.cons.injEq] at h1
        exact Or.inr (Or.inr (Or.inr (Or.inl h1.1.1)))
      rcases List.mem_append.mp h1 with h2 | h2
      · have hne : wp.images ≠ [] := by
          intro hh
          simp [imgPart, hh] at h2
        rcases imgPart_paths h2 with h3 | ⟨i, hi, h3⟩
        · rw [List.append_right_inj] at h3
          simp only [List.cons.injEq, and_true] at h3
          exact Or.inr (Or.inr (Or.inr (Or.inr ⟨h3, hne⟩)))
        · rw [List.append_right_inj] at h3
          simp at h3
      rcases List.mem_cons.mp h2 with h3 | h3
      · simp only [Prod.mk.injEq, List.append_right_inj,
          List.cons.injEq] at h3
        exact Or.inr (Or.inr (Or.inl h3.1.1))
      rcases List.mem_cons.mp h3 with h4 | h4
      · simp only [Prod.mk.injEq, List.append_right_inj,
          List.cons.injEq] at h4
        exact Or.inr (Or.inl h4.1.1)
      rcases List.mem_cons.mp h4 with h5 | h5
      · simp only [Prod.mk.injEq, List.append_right_inj,
          List.cons.injEq] at h5
        exact Or.inl h5.1.1
      rcases List.mem_cons.mp h5 with h6 | h6
      · simp at h6
      · have hs := (Fs.lookup_isSome_iff fs (out ++ [name])).mpr ⟨n, h6⟩
        rw [H [name]] at hs
        simp at hs
    · rintro (rfl | rfl | rfl | rfl | ⟨rfl, hne⟩)
      · exact ⟨FsNode.file (strBytes wp.html),
          List.mem_cons_of_mem _ (List.mem_append_right _ (by simp))⟩
      · exact ⟨FsNode.file pdfB,
          List.mem_cons_of_mem _ (List.mem_append_right _ (by simp))⟩
      · exact ⟨FsNode.file (strBytes wp.markdown),
          List.mem_cons_of_mem _ (List.mem_append_right _ (by simp))⟩
      · exact ⟨_, List.mem_cons_self _ _⟩
      · refine ⟨FsNode.dir,
          List.mem_cons_of_mem _ (List.mem_append_left _ ?_)⟩
        simp only [imgPart, hne, if_false]
        exact List.mem_append_right _ (by simp)
  · intro f
    rw [Fs.lookup_isSome_iff]
    constructor
    · rintro ⟨n, hn⟩
      rcases List.mem_cons.mp hn with h1 | h1
      · simp only [Prod.mk.injEq, List.append_right_inj,
          List.cons.injEq] at h1
        simp at h1
      rcases List.mem_append.mp h1 with h2 | h2
      · rcases imgPart_paths h2 with h3 | ⟨i, hi, h3⟩
        · rw [List.append_right_inj] at h3
          simp at h3
        · rw [List.append_right_inj] at h3
          simp only [List.cons.injEq, and_true] at h3
          exact List.mem_map.mpr ⟨i, hi, h3.2.symm⟩
      rcases List.mem_cons.mp h2 with h3 | h3
      · simp only [Prod.mk.injEq, List.append_right_inj,
          List.cons.injEq] at h3
        simp at h3
      rcases List.mem_cons.mp h3 with h4 | h4
      · simp only [Prod.mk.injEq, List.append_right_inj,
          List.cons.injEq] at h4
        simp at h4
      rcases List.mem_cons.mp h4 with h5 | h5
      · simp only [Prod.mk.injEq, List.append_right_inj,
          List.cons.injEq] at h5
        simp at h5
      rcases List.mem_cons.mp h5 with h6 | h6
      · simp at h6
      · have hs := (Fs.lookup_isSome_iff fs (out ++ ["images", f])).mpr
          ⟨n, h6⟩
        rw [H ["images", f]] at hs
        simp at hs
    · intro hf
      rcases List.mem_map.mp hf with ⟨i, hi, rfl⟩
      have hne : wp.images ≠ [] := List.ne_nil_of_mem hi
      refine ⟨FsNode.file i.image_bytes,
        List.mem_cons_of_mem _ (List.mem_append_left _ ?_)⟩
      simp only [imgPart, hne, if_false]
      exact List.mem_append_left _
        (List.mem_map.mpr ⟨i, List.mem_reverse.mpr hi, rfl⟩)

/-- Witness for C7 at a concrete one-asset capture on an empty
filesystem. -/
theorem c7_amended_layout_witness :
    (WebPage.write_to_disk fixWp (some [9]) ["out"] []).1 = .ok () ∧
    (∀ name : String,
      ((WebPage.write_to_disk fixWp (some [9]) ["out"] []).2.lookup
          (["out"] ++ [name])).isSome ↔
        (name = fixWp.title ++ ".html" ∨ name = fixWp.title ++ ".pdf" ∨
         name = fixWp.title ++ ".md" ∨ name = "informations.json" ∨
         (name = "images" ∧ fixWp.images ≠ []))) ∧
    (∀ f : String,
      ((WebPage.write_to_disk fixWp (some [9]) ["out"] []).2.lookup
          (["out"] ++ ["images", f])).isSome ↔
        f ∈ fixWp.images.map Image.filename) :=
  c7_amended_layout fixWp [9] ["out"] [] (fun _ => rfl) (by decide)
    (Or.inl rfl)

end Scraper
